import Mathlib

/-!
Verification of the jsPsych timeline-node execution core.

The development shallowly embeds the data model of
`src/packages/jspsych/src/timeline/index.ts` (descriptions, the reserved
timeline-control keys, the trial/timeline classifier functions and the
dependency contract) together with a model of the `Trial` node's `run()`
pipeline.  The `Trial` implementation itself is not part of the provided
sources (only its test suite `Trial.spec.ts` and the interface/type
declarations are), so the pipeline — parameter lookup, parameter
materialization, result assembly, lifecycle ordering and inter-trial gap
handling — is modelled from the specification and validated against the
concrete scenarios exercised by the test suite.
-/

namespace JsPsychTimeline

/-- Modelled from the spec: the universe of JavaScript values that appear as
trial parameters.  A zero-argument function is represented by the value it
returns together with its source-string rendering (`String(fn)`); a
`TimelineVariable` instance is represented by the name it references
(spec §3, "Parameter": literal, thunk, or timeline-variable reference). -/
inductive Param where
  | undefined
  | null
  | bool (b : Bool)
  | num (n : Int)
  | str (s : String)
  | func (ret : Param) (render : String)
  | timelineVar (name : String)
  | arr (elems : List Param)
  | obj (fields : List (String × Param))

/-- Whether a value is JavaScript `undefined`. -/
def Param.isUndefined : Param → Bool
  | .undefined => true
  | _ => false

/-- Whether a value is an array (`Array.isArray`). -/
def Param.isArr : Param → Bool
  | .arr _ => true
  | _ => false

/-- JavaScript truthiness (`Boolean(v)`): `undefined`, `null`, `false`, `0`
and the empty string are falsy; objects, arrays and functions are truthy. -/
def jsTruthy : Param → Bool
  | .undefined => false
  | .null => false
  | .bool b => b
  | .num n => n != 0
  | .str s => s != ""
  | _ => true

mutual

/-- JavaScript string conversion (`String(v)`): objects render as
`[object Object]`, arrays join their elements with commas, functions render
as their source string. -/
def Param.jsToString : Param → String
  | .undefined => "undefined"
  | .null => "null"
  | .bool b => if b then "true" else "false"
  | .num n => toString n
  | .str s => s
  | .func _ r => r
  | .timelineVar _ => "[object Object]"
  | .arr es => String.intercalate "," (jsToStringList es)
  | .obj _ => "[object Object]"

/-- String conversions of a list of values. -/
def jsToStringList : List Param → List String
  | [] => []
  | p :: ps => Param.jsToString p :: jsToStringList ps

end

/-- One segment of a parameter path: an object key or an array index
(spec §6, "Parameter path syntax"). -/
inductive Seg where
  | key (s : String)
  | idx (n : Nat)
deriving DecidableEq

/-- Modelled from the spec: `parameterPathArrayToString` from
`timeline/util.ts` (not among the provided sources).  Converts a segment
sequence to its dotted/bracketed string form, e.g. `["a", 0, "b"]` becomes
`"a[0].b"` (spec §6). -/
def parameterPathArrayToString (path : List Seg) : String :=
  match path with
  | [] => ""
  | .key s :: rest => s ++ go rest
  | .idx n :: rest => "[" ++ toString n ++ "]" ++ go rest
where
  go : List Seg → String
    | [] => ""
    | .key s :: rest => "." ++ s ++ go rest
    | .idx n :: rest => "[" ++ toString n ++ "]" ++ go rest

/-- Field lookup in a JavaScript object, `undefined` when absent. -/
def lookupField : List (String × Param) → String → Param
  | [], _ => .undefined
  | (k', v) :: rest, k => if k' = k then v else lookupField rest k

/-- One step of property access: `obj[key]` or `arr[idx]`. -/
def Param.getSeg : Param → Seg → Param
  | .obj fs, .key k => lookupField fs k
  | .arr es, .idx n => (es.get? n).getD .undefined
  | _, _ => .undefined

/-- Nested property access along a parameter path (the behaviour of the
lodash `get` used by the parameter resolver). -/
def Param.getPath : Param → List Seg → Param
  | v, [] => v
  | v, s :: rest => (v.getSeg s).getPath rest

/-- Modelled from the spec: a timeline ancestor of a trial node, carrying
its description object and the currently active timeline-variable set
(spec §4.2; the `Timeline` class is not among the provided sources). -/
structure AncestorNode where
  desc : Param
  tvEnv : List (String × Param)

/-- Option lookup in an association list. -/
def lookupOpt : List (String × Param) → String → Option Param
  | [], _ => none
  | (k', v) :: rest, k => if k' = k then some v else lookupOpt rest k

/-- Modelled from the spec: `evaluateTimelineVariable` (spec §4.2) — look the
name up in the nearest enclosing timeline's active variable set, walking
upward, `undefined` when no enclosing timeline declares it. -/
def evalTV : List AncestorNode → String → Param
  | [], _ => .undefined
  | a :: rest, name =>
    match lookupOpt a.tvEnv name with
    | some v => v
    | none => evalTV rest name

/-- Modelled from the spec: post-processing of a value found by the parameter
resolver (spec §4.1).  A timeline variable is evaluated (with no further
function evaluation); a function is invoked when `evaluateFunctions` is set
and its return value is re-checked for being a timeline variable. -/
def evalFoundValue (tvChain : List AncestorNode) (v : Param) (evalFns : Bool) : Param :=
  match v with
  | .timelineVar n => evalTV tvChain n
  | .func ret _ =>
    if evalFns then
      match ret with
      | .timelineVar n => evalTV tvChain n
      | r => r
    else v
  | v => v

/-- The nine reserved timeline-control keys, from `timelineDescriptionKeys`
in `timeline/index.ts` (lines 83–93). -/
def timelineDescriptionKeys : List String :=
  ["timeline", "timeline_variables", "repetitions", "loop_function",
   "conditional_function", "randomize_order", "sample",
   "on_timeline_start", "on_timeline_finish"]

/-- Whether a parameter path names one of the reserved timeline-control keys
(spec §4.1: "If `path` names a reserved timeline-control key"). -/
def isReservedPath : List Seg → Bool
  | [.key k] => timelineDescriptionKeys.contains k
  | _ => false

/-- Modelled from the spec: the ancestor-fallback part of `getParameterValue`
(spec §4.1): each ancestor looks the path up in its own description; a found
value is post-processed at that node; otherwise the lookup is delegated one
level further up.  The second component counts how many ancestor lookups were
performed. -/
def ancestorLookup : List AncestorNode → List Seg → Bool → Param × Nat
  | [], _, _ => (.undefined, 0)
  | a :: rest, path, evalFns =>
    let v := a.desc.getPath path
    if v.isUndefined then
      let r := ancestorLookup rest path evalFns
      (r.1, r.2 + 1)
    else
      (evalFoundValue (a :: rest) v evalFns, 1)

/-- Options of `getParameterValue` (`GetParameterValueOptions` in
`timeline/index.ts`, lines 160–176; both default to `true`). -/
structure GetParamOptions where
  evaluateFunctions : Bool := true
  recursive : Bool := true

/-- A trial node: its (working-copy) description and its chain of timeline
ancestors, nearest first. -/
structure TrialNode where
  description : Param
  ancestors : List AncestorNode

/-- Modelled from the spec: `Trial.getParameterValue` (spec §4.1, §3
invariant), instrumented with the number of ancestor lookups performed.  A
reserved timeline-control key returns `undefined` immediately, without
consulting ancestors; otherwise the path is looked up in the node's own
description, falling back to ancestors only when unresolved and
`recursive` is set. -/
def getParameterValueCounted (t : TrialNode) (path : List Seg)
    (opts : GetParamOptions) : Param × Nat :=
  if isReservedPath path then (.undefined, 0)
  else
    let v := t.description.getPath path
    if v.isUndefined then
      if opts.recursive then ancestorLookup t.ancestors path opts.evaluateFunctions
      else (.undefined, 0)
    else
      (evalFoundValue t.ancestors v opts.evaluateFunctions, 0)

/-- The value returned by `Trial.getParameterValue`. -/
def getParameterValue (t : TrialNode) (path : List Seg) (opts : GetParamOptions) : Param :=
  (getParameterValueCounted t path opts).1

/-- The `ParameterType` tags relevant to the core (`modules/plugins`): only
`FUNCTION` (whose parameters are exempt from function evaluation) and
`COMPLEX` (which may carry a nested schema) influence materialization. -/
inductive PType where
  | string
  | htmlString
  | image
  | complex
  | function
  | other
deriving DecidableEq

mutual

/-- Modelled from the spec: per-parameter metadata owned by the plugin
(spec §3, "ParameterInfo"): a type tag, an array flag, an optional default
(absence of a default makes the parameter required) and, for COMPLEX types,
a nested schema. -/
inductive ParameterInfo where
  | mk (ptype : PType) (isArray : Bool) (dflt : Option Param) (nested : NestedInfos)

/-- An ordered collection of named parameter declarations. -/
inductive NestedInfos where
  | nil
  | cons (name : String) (info : ParameterInfo) (rest : NestedInfos)

end

/-- Whether the declared parameter has type `FUNCTION`. -/
def ParameterInfo.isFunctionType : ParameterInfo → Bool
  | .mk pt _ _ _ => pt == .function

/-- Whether a declaration collection is empty. -/
def NestedInfos.isNil : NestedInfos → Bool
  | .nil => true
  | .cons _ _ _ => false

/-- Fatal errors of parameter materialization (spec §7). -/
inductive TrialError where
  | missingParameter (path : List Seg)
  | invalidParameterType (path : List Seg) (pluginName : String) (value : Param)

/-- The error messages: the non-array message is the exact string asserted by
the inline snapshot in `Trial.spec.ts` (lines 331–340); the missing-parameter
message is modelled from the spec ("a MissingParameter error identifying the
full dotted/indexed path" — the tests check that it contains
`"<path>" parameter`). -/
def errMsg : TrialError → String
  | .missingParameter p =>
    "You must specify a value for the " ++
      ("\"" ++ parameterPathArrayToString p ++ "\" parameter" ++ ".")
  | .invalidParameterType p plugin v =>
    "A non-array value (`" ++ v.jsToString ++ "`) was provided for the array parameter \"" ++
      parameterPathArrayToString p ++ "\" in the \"" ++ plugin ++
      "\" plugin. Please make sure that \"" ++ parameterPathArrayToString p ++ "\" is an array."

/-- Updates (or appends) a field of an association list, JavaScript
assignment semantics: the first occurrence is replaced in place, a fresh key
is appended at the end. -/
def setKey (l : List (String × Param)) (k : String) (v : Param) : List (String × Param) :=
  match l with
  | [] => [(k, v)]
  | (k', v') :: rest => if k' = k then (k, v) :: rest else (k', v') :: setKey rest k v

/-- Sets a field on an object value; any other value is left unchanged. -/
def Param.setField : Param → String → Param → Param
  | .obj fs, k, v => .obj (setKey fs k v)
  | p, _, _ => p

/-- Modelled from the spec: resolution of a nested declared parameter
(spec §4.3 step 4): the child key is looked up in the enclosing
(already evaluated) container value; when unresolved there, the resolver
walks up to the timeline ancestors using the full indexed path. -/
def resolveChild (t : TrialNode) (container : Param) (childSeg : Seg)
    (fullPath : List Seg) (evalFns : Bool) : Param :=
  let v := container.getSeg childSeg
  if v.isUndefined then (ancestorLookup t.ancestors fullPath evalFns).1
  else evalFoundValue t.ancestors v evalFns

/-- Modelled from the spec: the raw resolution of a declared parameter
(spec §4.3 step 1).  A top-level parameter goes through the trial's
`getParameterValue` (recursive, evaluating functions unless the parameter is
FUNCTION-typed); a nested parameter resolves against its container with
full-path ancestor fallback. -/
def resolveDeclared (t : TrialNode) (container : Param) (name : String)
    (parentPath : List Seg) (evalFns : Bool) : Param :=
  match parentPath with
  | [] => getParameterValue t [.key name] ⟨evalFns, true⟩
  | _ => resolveChild t container (.key name) (parentPath ++ [.key name]) evalFns

/-- The type of a function processing one declared parameter: metadata, full
path, raw resolved value. -/
abbrev ParamProcessor := ParameterInfo → List Seg → Param → Except TrialError Param

/-- Modelled from the spec: processing of a collection of declared parameters
against a container value (spec §4.3); each declared parameter is resolved,
handed to `recur`, and the processed value is written back into the
container, leaving undeclared fields untouched. -/
def processFieldsWith (t : TrialNode) (recur : ParamProcessor) :
    NestedInfos → List Seg → Param → Except TrialError Param
  | .nil, _, container => .ok container
  | .cons cname cinfo rest, parentPath, container =>
    let childPath := parentPath ++ [.key cname]
    let raw := resolveDeclared t container cname parentPath (!cinfo.isFunctionType)
    match recur cinfo childPath raw with
    | .error e => .error e
    | .ok v => processFieldsWith t recur rest parentPath (container.setField cname v)

/-- Modelled from the spec: processing of the elements of a COMPLEX array
parameter (spec §4.3 step 4): each element is evaluated (it may itself be a
function or timeline variable) and then processed by `fieldsFn` under the
numeric-indexed path. -/
def processElemsWith (t : TrialNode)
    (fieldsFn : List Seg → Param → Except TrialError Param) (fullPath : List Seg) :
    Nat → List Param → Except TrialError (List Param)
  | _, [] => .ok []
  | i, e :: es =>
    let ev := evalFoundValue t.ancestors e true
    match fieldsFn (fullPath ++ [.idx i]) ev with
    | .error err => .error err
    | .ok e' =>
      match processElemsWith t fieldsFn fullPath (i + 1) es with
      | .error err => .error err
      | .ok es' => .ok (e' :: es')

/-- Modelled from the spec: processing of one declared parameter whose raw
resolution is `raw` (spec §4.3 steps 2–4): apply the default when
unresolved, fail with `MissingParameter` when still undefined, enforce the
array constraint, and recurse into a nested schema (per element for array
parameters) through `fieldsFn`. -/
def processResolvedStep (plugin : String) (t : TrialNode)
    (fieldsFn : NestedInfos → List Seg → Param → Except TrialError Param)
    (info : ParameterInfo) (fullPath : List Seg) (raw : Param) : Except TrialError Param :=
  match info with
  | .mk _pt isArr dflt ns =>
    let value := if raw.isUndefined then (match dflt with | some d => d | none => Param.undefined) else raw
    if value.isUndefined then
      .error (.missingParameter fullPath)
    else if isArr && !value.isArr then
      .error (.invalidParameterType fullPath plugin value)
    else if ns.isNil then
      .ok value
    else if isArr then
      match value with
      | .arr es =>
        match processElemsWith t (fieldsFn ns) fullPath 0 es with
        | .ok es' => .ok (.arr es')
        | .error e => .error e
      | v => .ok v
    else
      fieldsFn ns fullPath value

/-- Modelled from the spec: the recursive parameter-processing procedure of
spec §4.3, stratified by the nesting depth it may still descend into.  Each
descent into a nested schema consumes one level; `materializeParams` supplies
the schema's static nesting depth, so the zero level (which leaves a nested
container unprocessed) is never reached on any input. -/
def processResolvedFuel (plugin : String) (t : TrialNode) : Nat → ParamProcessor
  | 0 => processResolvedStep plugin t (fun _ _ container => .ok container)
  | fuel + 1 =>
    processResolvedStep plugin t
      (fun ns path container => processFieldsWith t (processResolvedFuel plugin t fuel) ns path container)

mutual

/-- The nesting depth of one parameter declaration. -/
def ParameterInfo.nestDepth : ParameterInfo → Nat
  | .mk _ _ _ ns => NestedInfos.nestDepth ns

/-- The nesting depth of a parameter schema (0 when no declaration has a
nested schema). -/
def NestedInfos.nestDepth : NestedInfos → Nat
  | .nil => 0
  | .cons _ info rest => max (info.nestDepth + 1) (NestedInfos.nestDepth rest)

end

/-- A plugin's static metadata: its declared `name` and parameter schema
(spec §6, plugin contract). -/
structure PluginInfo where
  name : String
  parameters : NestedInfos

/-- Modelled from the spec: full parameter materialization of a trial
(spec §4.3): every declared parameter is resolved, defaulted, validated and
written into the trial's working description. -/
def materializeParams (t : TrialNode) (plugin : PluginInfo) : Except TrialError Param :=
  processFieldsWith t (processResolvedFuel plugin.name t plugin.parameters.nestDepth)
    plugin.parameters [] t.description

/-- Removes a key from an association list (JavaScript `delete`). -/
def removeKey (l : List (String × Param)) (k : String) : List (String × Param) :=
  match l with
  | [] => []
  | (k', v') :: rest => if k' = k then removeKey rest k else (k', v') :: removeKey rest k

/-- Function-valued results are rendered as their string form when forced
into the result record by `save_trial_parameters` (spec §4.4). -/
def stringifyIfFunc : Param → Param
  | .func _ r => .str r
  | v => v

/-- The names declared by a parameter schema. -/
def NestedInfos.names : NestedInfos → List String
  | .nil => []
  | .cons n _ rest => n :: rest.names

/-- The warning issued for a `save_trial_parameters` entry that names no
declared plugin parameter (exact text from `Trial.spec.ts`, line 243). -/
def saveParamWarning (k : String) : String :=
  "Non-existent parameter \"" ++ k ++ "\" specified in save_trial_parameters."

/-- Modelled from the spec: the `save_trial_parameters` policy applied during
result assembly (spec §4.4): `true` forces the resolved parameter value into
the result (functions stringified), `false` removes the key, and an entry
naming no declared parameter leaves the result untouched while recording a
warning (the second component lists the offending keys). -/
def applySaveParams (res : List (String × Param)) (stp : List (String × Bool))
    (declared : List String) (materialized : Param) :
    List (String × Param) × List String :=
  match stp with
  | [] => (res, [])
  | (k, b) :: rest =>
    if declared.contains k then
      applySaveParams
        (if b then setKey res k (stringifyIfFunc (materialized.getSeg (.key k)))
         else removeKey res k)
        rest declared materialized
    else
      ((applySaveParams res rest declared materialized).1,
       k :: (applySaveParams res rest declared materialized).2)

/-- Modelled from the spec: assembly of the trial's result record (spec §3,
§4.4): the plugin-produced record is merged with the `data` parameter,
filtered through `save_trial_parameters`, and overlaid with the
trial-specific metadata `trial_type` and `trial_index`. -/
def assembleResult (t : TrialNode) (plugin : PluginInfo) (materialized : Param)
    (rawResult : Param) (index : Nat) : List (String × Param) × List String :=
  let base := match rawResult with | .obj fs => fs | _ => []
  let withData :=
    match getParameterValue t [.key "data"] {} with
    | .obj ds => ds.foldl (fun acc kv => setKey acc kv.1 kv.2) base
    | _ => base
  let stpEntries :=
    match getParameterValue t [.key "save_trial_parameters"] {} with
    | .obj ss => ss.map (fun kv => (kv.1, jsTruthy kv.2))
    | _ => []
  let stepped := applySaveParams withData stpEntries plugin.parameters.names materialized
  (setKey (setKey stepped.1 "trial_type" (.str plugin.name)) "trial_index" (.num index),
   stepped.2)

/-- The lifecycle callback invocations observable during a trial run:
the trial's local hooks and the dependency-bundle notifications
(`TimelineNodeDependencies`, `timeline/index.ts` lines 120–158, plus the
`onTrialResultAvailable` notification exercised by `Trial.spec.ts`
lines 153–172). -/
inductive TrialEvent where
  | localOnStart
  | depOnTrialStart
  | localOnLoad
  | depOnTrialLoaded
  | localOnFinish
  | depOnTrialResultAvailable
  | depOnTrialFinished
deriving DecidableEq

/-- Modelled from the spec: one trial run's inputs (spec §4.4): the
description and ancestor chain, the plugin and its behaviour during this run
(whether its `trial` method returns an awaitable, whether it invokes the
load-callback, the awaitable's resolution value), the completion channel
(`finishTrialPromise`) value and whether it settled before the plugin's
promise, the local `on_start` hook's mutation of the working description,
and the injected default inter-trial interval. -/
structure RunConfig where
  description : Param
  ancestors : List AncestorNode
  plugin : PluginInfo
  onStartMutation : Param → Param
  returnsPromise : Bool
  pluginCallsLoad : Bool
  promiseValue : Param
  channelValue : Param
  channelFirst : Bool
  defaultIti : Nat
  trialIndex : Nat

/-- The observable outcome of one trial run. -/
structure RunOutcome where
  trace : List TrialEvent
  pluginInvoked : Bool
  pluginArgs : Option Param
  error : Option TrialError
  rawResult : Param
  result : Option (List (String × Param))
  warnings : List String
  settleDelay : Option Nat

/-- Modelled from the spec: the candidate result record (spec §4.4 step 5):
in the promise path the awaitable's resolution value, unless the completion
channel settled first, whose value then takes precedence; in the callback
path, always the completion channel's value. -/
def candidateResult (cfg : RunConfig) : Param :=
  if cfg.returnsPromise then
    if cfg.channelFirst then cfg.channelValue else cfg.promiseValue
  else cfg.channelValue

/-- Modelled from the spec: whether the load-callback fires during the run
(spec §4.4 step 5, validated by `Trial.spec.ts` lines 90–134): in the
promise path only when the plugin invokes it, in the callback path always
(the core invokes it after the `trial` method returns). -/
def loadTriggered (cfg : RunConfig) : Bool :=
  if cfg.returnsPromise then cfg.pluginCallsLoad else true

/-- Modelled from the spec: the trial node of a run configuration (its
working description with ancestor chain). -/
def RunConfig.node (cfg : RunConfig) : TrialNode :=
  ⟨cfg.description, cfg.ancestors⟩

/-- Modelled from the spec: the `Trial.run()` pipeline (spec §4.4, §7).
Parameter materialization happens first; a fatal resolution error rejects
the run before the plugin is instantiated and before any lifecycle
notification fires.  On success the local `on_start` mutation is applied to
the working object handed to the plugin, the lifecycle notifications fire in
the specified order (the load pair only when the load-callback is
triggered), the result record is assembled from the winning completion
value, and the run settles only after the resolved `post_trial_gap` (or,
absent that, the injected default inter-trial interval). -/
def runTrial (cfg : RunConfig) : RunOutcome :=
  match materializeParams cfg.node cfg.plugin with
  | .error e =>
    { trace := [], pluginInvoked := false, pluginArgs := none, error := some e,
      rawResult := .undefined, result := none, warnings := [], settleDelay := none }
  | .ok materialized =>
    let trialObject := cfg.onStartMutation materialized
    let raw := candidateResult cfg
    let assembled := assembleResult cfg.node cfg.plugin materialized raw cfg.trialIndex
    let gap :=
      match getParameterValue cfg.node [.key "post_trial_gap"] {} with
      | .num n => n.toNat
      | _ => cfg.defaultIti
    { trace :=
        [.localOnStart, .depOnTrialStart] ++
        (if loadTriggered cfg then [.localOnLoad, .depOnTrialLoaded] else []) ++
        [.localOnFinish, .depOnTrialResultAvailable, .depOnTrialFinished],
      pluginInvoked := true, pluginArgs := some trialObject, error := none,
      rawResult := raw, result := some assembled.1, warnings := assembled.2.map saveParamWarning,
      settleDelay := some gap }

/-- Reads an address of a small object heap (`undefined` off the end). -/
def readAt : List Param → Nat → Param
  | [], _ => .undefined
  | x :: _, 0 => x
  | _ :: xs, n + 1 => readAt xs n

/-- Overwrites an address of a small object heap. -/
def writeAt : List Param → Nat → Param → List Param
  | [], _, _ => []
  | _ :: xs, 0, v => v :: xs
  | x :: xs, n + 1, v => x :: writeAt xs n v

/-- The heap and the two relevant addresses after the working-copy phase of
a run: the authored description's address and the working copy's address. -/
structure WorkingCopyPhase where
  heap : List Param
  originalAddr : Nat
  workingAddr : Nat

/-- Modelled from the spec: the working-copy discipline of `Trial.run()`
(spec §3, §4.4 step 2): a deep, independent copy of the authored description
is allocated at a fresh address, and the local `on_start` hook's mutation is
applied to the copy only. -/
def runWorkingCopyPhase (h : List Param) (a0 : Nat) (hook : Param → Param) :
    WorkingCopyPhase :=
  let h1 := h ++ [readAt h a0]
  let a1 := h.length
  ⟨writeAt h1 a1 (hook (readAt h1 a1)), a0, a1⟩

/-- `isTimelineDescription` from `timeline/index.ts` (lines 101–105):
`Boolean(description.timeline) || Array.isArray(description)`. -/
def isTimelineDescription (description : Param) : Bool :=
  jsTruthy (description.getSeg (.key "timeline")) || description.isArr

/-- `isTrialDescription` from `timeline/index.ts` (lines 95–99):
`!isTimelineDescription(description)`. -/
def isTrialDescription (description : Param) : Bool :=
  !isTimelineDescription description

/-- `pat` occurs as a contiguous substring of `s`. -/
def containsSubstring (pat s : String) : Prop :=
  ∃ pre post, s = pre ++ (pat ++ post)

/-- Whether the run's returned completion has settled once `n` time units
have elapsed after the trial's completion signal. -/
def settledBy (o : RunOutcome) (n : Nat) : Bool :=
  match o.settleDelay with
  | some g => decide (g ≤ n)
  | none => false

/-- The final result record of a run (empty when unavailable). -/
def resultFields (o : RunOutcome) : List (String × Param) :=
  o.result.getD []

/-! Concrete fixtures mirroring the `TestPlugin` scenarios of
`Trial.spec.ts`. -/

/-- The test plugin with no declared parameters. -/
def pluginBare : PluginInfo := ⟨"test", .nil⟩

/-- A minimal trial description. -/
def descBare : Param := .obj [("type", .str "test")]

/-- A baseline run configuration: promise path, load-callback invoked by the
plugin, completion channel not settling first. -/
def cfgBase : RunConfig where
  description := descBare
  ancestors := []
  plugin := pluginBare
  onStartMutation := id
  returnsPromise := true
  pluginCallsLoad := true
  promiseValue := .obj [("my", .str "result")]
  channelValue := .obj [("finishTrial", .str "result")]
  channelFirst := false
  defaultIti := 0
  trialIndex := 0

/-- Claim C10: for every description, `isTrialDescription` returns the exact
boolean negation of `isTimelineDescription`; `isTimelineDescription` returns
true precisely when the `timeline` property is truthy or the description is
an array; consequently a description carrying a falsy `timeline` value
(`0`, the empty string, or `null`) is classified as a trial description
despite having a `timeline` key. -/
theorem trial_timeline_description_classification :
    (∀ d : Param, isTrialDescription d = !isTimelineDescription d) ∧
    (∀ d : Param,
      isTimelineDescription d = (jsTruthy (d.getSeg (.key "timeline")) || d.isArr)) ∧
    isTrialDescription (.obj [("timeline", .num 0)]) = true ∧
    isTrialDescription (.obj [("timeline", .str "")]) = true ∧
    isTrialDescription (.obj [("timeline", .null)]) = true ∧
    isTimelineDescription (.arr []) = true :=
  ⟨fun _ => rfl, fun _ => rfl, rfl, rfl, rfl, rfl⟩

/-- Claim C2: for every node and each of the nine reserved timeline-control
keys, `getParameterValue` with that key as the path returns `undefined`
without performing a single ancestor lookup, for every combination of the
`recursive` and `evaluateFunctions` options and regardless of the node's
description (in particular even when the key is present on it). -/
theorem reserved_timeline_keys_return_undefined :
    ∀ (t : TrialNode) (opts : GetParamOptions),
      getParameterValueCounted t [.key "timeline"] opts = (.undefined, 0) ∧
      getParameterValueCounted t [.key "timeline_variables"] opts = (.undefined, 0) ∧
      getParameterValueCounted t [.key "repetitions"] opts = (.undefined, 0) ∧
      getParameterValueCounted t [.key "loop_function"] opts = (.undefined, 0) ∧
      getParameterValueCounted t [.key "conditional_function"] opts = (.undefined, 0) ∧
      getParameterValueCounted t [.key "randomize_order"] opts = (.undefined, 0) ∧
      getParameterValueCounted t [.key "sample"] opts = (.undefined, 0) ∧
      getParameterValueCounted t [.key "on_timeline_start"] opts = (.undefined, 0) ∧
      getParameterValueCounted t [.key "on_timeline_finish"] opts = (.undefined, 0) :=
  fun _ _ => ⟨rfl, rfl, rfl, rfl, rfl, rfl, rfl, rfl, rfl⟩

/-- Claim C1: for every trial that runs to normal completion (parameter
materialization succeeds), the lifecycle callbacks fire in exactly the
order: local `on_start`, dependency `onTrialStart`, then — only when the
load-callback is triggered — local `on_load` followed by dependency
`onTrialLoaded`, then local `on_finish`, dependency `onTrialResultAvailable`
and dependency `onTrialFinished`; in particular `onTrialResultAvailable` is
a distinct notification fired before `onTrialFinished`. -/
theorem trial_lifecycle_callback_order (cfg : RunConfig) (m : Param)
    (h : materializeParams cfg.node cfg.plugin = .ok m) :
    (runTrial cfg).trace =
      [.localOnStart, .depOnTrialStart] ++
      (if loadTriggered cfg then [.localOnLoad, .depOnTrialLoaded] else []) ++
      [.localOnFinish, .depOnTrialResultAvailable, .depOnTrialFinished] := by
  unfold runTrial
  rw [h]

/-- Witness for claim C1: the baseline configuration materializes
successfully and its trace is exactly the seven-event sequence. -/
theorem trial_lifecycle_callback_order_witness :
    materializeParams cfgBase.node cfgBase.plugin = .ok descBare ∧
    (runTrial cfgBase).trace =
      [.localOnStart, .depOnTrialStart, .localOnLoad, .depOnTrialLoaded,
       .localOnFinish, .depOnTrialResultAvailable, .depOnTrialFinished] :=
  ⟨rfl, (trial_lifecycle_callback_order cfgBase descBare rfl).trans rfl⟩

/-- Claim C3: when the plugin's trial method returns an awaitable, the
trial's candidate result is the awaitable's resolution value, unless the
injected completion channel (`finishTrialPromise`) resolves first, in which
case the completion channel's value is used for the result record instead. -/
theorem finish_channel_takes_precedence (cfg : RunConfig) (m : Param)
    (h : materializeParams cfg.node cfg.plugin = .ok m)
    (hp : cfg.returnsPromise = true) :
    (cfg.channelFirst = true → (runTrial cfg).rawResult = cfg.channelValue) ∧
    (cfg.channelFirst = false → (runTrial cfg).rawResult = cfg.promiseValue) := by
  unfold runTrial
  rw [h]
  exact ⟨fun hc => by simp [candidateResult, hp, hc],
         fun hc => by simp [candidateResult, hp, hc]⟩

/-- Witness for claim C3: with the completion channel settling first, the
raw result is the channel's value; with the promise settling first, it is
the promise's value. -/
theorem finish_channel_takes_precedence_witness :
    materializeParams cfgBase.node cfgBase.plugin = .ok descBare ∧
    (runTrial { cfgBase with channelFirst := true }).rawResult =
      .obj [("finishTrial", .str "result")] ∧
    (runTrial cfgBase).rawResult = .obj [("my", .str "result")] :=
  ⟨rfl,
   (finish_channel_takes_precedence { cfgBase with channelFirst := true } descBare rfl rfl).1 rfl,
   (finish_channel_takes_precedence cfgBase descBare rfl rfl).2 rfl⟩

/-- A run configuration whose description resolves `post_trial_gap` to 200
through a parameter function, with a default inter-trial interval of 100. -/
def cfgGap200 : RunConfig :=
  { cfgBase with
      description := .obj [("type", .str "test"),
                           ("post_trial_gap", .func (.num 200) "() => 200")],
      defaultIti := 100 }

/-- A run configuration without `post_trial_gap` and a default inter-trial
interval of 100. -/
def cfgNoGap : RunConfig := { cfgBase with defaultIti := 100 }

/-- Claim C9: after the completion signal, the run settles only after a
suspension equal to the resolved `post_trial_gap` parameter (possibly
function-valued) when present, and otherwise equal to the injected default
inter-trial interval; concretely, with `post_trial_gap` resolving to 200 and
a default ITI of 100 the run is not settled after 100 units but is settled
after 200, and with no `post_trial_gap` it is settled after 100. -/
theorem post_trial_gap_timing (cfg : RunConfig) (m : Param)
    (h : materializeParams cfg.node cfg.plugin = .ok m) :
    (∀ n : Int, getParameterValue cfg.node [.key "post_trial_gap"] {} = .num n →
      (runTrial cfg).settleDelay = some n.toNat) ∧
    (getParameterValue cfg.node [.key "post_trial_gap"] {} = .undefined →
      (runTrial cfg).settleDelay = some cfg.defaultIti) ∧
    (getParameterValue cfg.node [.key "post_trial_gap"] {} = .num 200 →
      cfg.defaultIti = 100 →
      settledBy (runTrial cfg) 100 = false ∧ settledBy (runTrial cfg) 200 = true) ∧
    (getParameterValue cfg.node [.key "post_trial_gap"] {} = .undefined →
      cfg.defaultIti = 100 → settledBy (runTrial cfg) 100 = true) := by
  refine ⟨fun n hg => ?_, fun hg => ?_, fun hg hd => ?_, fun hg hd => ?_⟩
  · unfold runTrial; rw [h]; simp [hg]
  · unfold runTrial; rw [h]; simp [hg]
  · unfold runTrial; rw [h]; simp [settledBy, hg, hd]
  · unfold runTrial; rw [h]; simp [settledBy, hg, hd]

/-- Witness for claim C9: with a function-valued `post_trial_gap` of 200 and
default ITI 100 the run is unsettled at 100 and settled at 200; without
`post_trial_gap` it is settled at 100. -/
theorem post_trial_gap_timing_witness :
    materializeParams cfgGap200.node cfgGap200.plugin = .ok cfgGap200.description ∧
    settledBy (runTrial cfgGap200) 100 = false ∧
    settledBy (runTrial cfgGap200) 200 = true ∧
    settledBy (runTrial cfgNoGap) 100 = true :=
  ⟨rfl,
   ((post_trial_gap_timing cfgGap200 cfgGap200.description rfl).2.2.1 rfl rfl).1,
   ((post_trial_gap_timing cfgGap200 cfgGap200.description rfl).2.2.1 rfl rfl).2,
   (post_trial_gap_timing cfgNoGap descBare rfl).2.2.2 rfl rfl⟩

/-- A required-child schema, as declared by the
`requiredComplexNestedArray` parameter of the tests. -/
def nestedRequiredChild : NestedInfos :=
  .cons "requiredChild" (.mk .string false none .nil) .nil

/-- The plugin of the missing-nested-array-parameter test
(`Trial.spec.ts`, lines 440–447). -/
def pluginC4 : PluginInfo :=
  ⟨"test", .cons "requiredComplexNestedArray" (.mk .complex true none nestedRequiredChild) .nil⟩

/-- The failing trial of the missing-nested-array-parameter test
(`Trial.spec.ts`, lines 463–468): the second array element is an empty
object and no ancestor provides the required child. -/
def cfgC4 : RunConfig :=
  { cfgBase with
      plugin := pluginC4,
      description := .obj [("type", .str "test"),
        ("requiredComplexNestedArray", .arr [.obj [("requiredChild", .str "bar")], .obj []])] }

/-- Claim C4: a declared parameter without a default whose resolution is
`undefined` fails with a `MissingParameter` error carrying the full path;
the error message contains the quoted dotted/indexed path followed by
`parameter`; any materialization error makes `run()` reject before the
plugin's trial method is invoked and before any lifecycle notification
fires; and concretely, an empty second element of a required
nested-array parameter yields exactly the path
`requiredComplexNestedArray[1].requiredChild`. -/
theorem missing_required_parameter_rejects_run :
    (∀ (plugin : String) (t : TrialNode) (fuel : Nat) (pt : PType) (isArr : Bool)
        (ns : NestedInfos) (path : List Seg),
      processResolvedFuel plugin t fuel (.mk pt isArr none ns) path .undefined =
        .error (.missingParameter path)) ∧
    (∀ path : List Seg,
      containsSubstring ("\"" ++ parameterPathArrayToString path ++ "\" parameter")
        (errMsg (.missingParameter path))) ∧
    (∀ (cfg : RunConfig) (e : TrialError),
      materializeParams cfg.node cfg.plugin = .error e →
      (runTrial cfg).trace = [] ∧ (runTrial cfg).pluginInvoked = false ∧
        (runTrial cfg).error = some e) ∧
    (runTrial cfgC4).error =
      some (.missingParameter [.key "requiredComplexNestedArray", .idx 1, .key "requiredChild"]) ∧
    errMsg (.missingParameter [.key "requiredComplexNestedArray", .idx 1, .key "requiredChild"]) =
      "You must specify a value for the \"requiredComplexNestedArray[1].requiredChild\" parameter." ∧
    (runTrial cfgC4).pluginInvoked = false ∧
    (runTrial cfgC4).trace = [] := by
  refine ⟨fun plugin t fuel pt isArr ns path => ?_,
          fun path => ⟨"You must specify a value for the ", ".", rfl⟩,
          fun cfg e h => ?_, rfl, rfl, rfl, rfl⟩
  · cases fuel <;> rfl
  · unfold runTrial; rw [h]; exact ⟨rfl, rfl, rfl⟩

/-- Witness for claim C4: the general conjuncts applied to the concrete
failing trial of the nested-array test. -/
theorem missing_required_parameter_rejects_run_witness :
    materializeParams cfgC4.node cfgC4.plugin =
      .error (.missingParameter [.key "requiredComplexNestedArray", .idx 1, .key "requiredChild"]) ∧
    processResolvedFuel "test" cfgC4.node 0 (.mk .string false none .nil)
        [.key "requiredString"] .undefined = .error (.missingParameter [.key "requiredString"]) ∧
    (runTrial cfgC4).trace = [] ∧ (runTrial cfgC4).pluginInvoked = false :=
  ⟨rfl,
   missing_required_parameter_rejects_run.1 "test" cfgC4.node 0 .string false .nil
     [.key "requiredString"],
   (missing_required_parameter_rejects_run.2.2.1 cfgC4 _ rfl).1,
   (missing_required_parameter_rejects_run.2.2.1 cfgC4 _ rfl).2.1⟩

/-- The nested schema shared by `requiredComplexNested` and
`requiredComplexNestedArray` in the parameter-specification tests
(`Trial.spec.ts`, lines 257–271): a defaulted `child` and a required
`requiredChild`. -/
def tpNested : NestedInfos :=
  .cons "child" (.mk .string false (some (.str "nested default")) .nil)
    (.cons "requiredChild" (.mk .string false none .nil) .nil)

/-- The full parameter schema of the parameter-specification tests
(`Trial.spec.ts`, lines 251–272). -/
def tpC5 : PluginInfo :=
  ⟨"test",
    .cons "string" (.mk .string false (some .null) .nil)
      (.cons "requiredString" (.mk .string false none .nil)
        (.cons "stringArray" (.mk .string true (some (.arr [])) .nil)
          (.cons "function" (.mk .function false (some (.func .undefined "functionDefaultValue")) .nil)
            (.cons "complex" (.mk .complex false (some (.obj [])) .nil)
              (.cons "requiredComplexNested" (.mk .complex false none tpNested)
                (.cons "requiredComplexNestedArray" (.mk .complex true none tpNested) .nil))))))⟩

/-- The mocked parent timeline of the fallback test (`Trial.spec.ts`,
lines 276–288): it provides `requiredString` and
`requiredComplexNestedArray[0].requiredChild`. -/
def ancC5 : AncestorNode :=
  ⟨.obj [("requiredString", .str "foo"),
         ("requiredComplexNestedArray", .arr [.obj [("requiredChild", .str "foo")]])], []⟩

/-- The trial description of the fallback test (`Trial.spec.ts`,
lines 289–298): the first nested-array element is an empty object. -/
def descC5 : Param :=
  .obj [("type", .str "test"),
        ("requiredComplexNested", .obj [("requiredChild", .str "bar")]),
        ("requiredComplexNestedArray", .arr [.obj [], .obj [("requiredChild", .str "bar")]])]

/-- The trial node of the fallback test. -/
def tC5 : TrialNode := ⟨descC5, [ancC5]⟩

/-- The materialized parameter object expected by the fallback test
(`Trial.spec.ts`, lines 303–319). -/
def matC5 : Param :=
  .obj [("type", .str "test"),
        ("requiredComplexNested",
         .obj [("requiredChild", .str "bar"), ("child", .str "nested default")]),
        ("requiredComplexNestedArray",
         .arr [.obj [("child", .str "nested default"), ("requiredChild", .str "foo")],
               .obj [("requiredChild", .str "bar"), ("child", .str "nested default")]]),
        ("string", .null),
        ("requiredString", .str "foo"),
        ("stringArray", .arr []),
        ("function", .func .undefined "functionDefaultValue"),
        ("complex", .obj [])]

/-- Claim C5: a declared parameter absent from the working description
resolves through the recursive ancestor fallback of `getParameterValue`;
a parameter that is still undefined takes its declared default; and in the
concrete fallback scenario of the test suite, the empty-object element of
the COMPLEX array parameter obtains its required child from the ancestor
value stored under the full indexed path
`requiredComplexNestedArray[0].requiredChild`, while defaulted parameters
materialize to their declared defaults. -/
theorem parameter_fallback_and_defaults :
    (∀ (t : TrialNode) (name : String) (opts : GetParamOptions),
      isReservedPath [.key name] = false →
      t.description.getSeg (.key name) = .undefined →
      opts.recursive = true →
      getParameterValue t [.key name] opts =
        (ancestorLookup t.ancestors [.key name] opts.evaluateFunctions).1) ∧
    (∀ (plugin : String) (t : TrialNode) (fuel : Nat) (pt : PType) (d : Param)
        (path : List Seg),
      d.isUndefined = false →
      processResolvedFuel plugin t fuel (.mk pt false (some d) .nil) path .undefined = .ok d) ∧
    materializeParams tC5 tpC5 = .ok matC5 ∧
    matC5.getPath [.key "requiredComplexNestedArray", .idx 0, .key "requiredChild"] =
      .str "foo" ∧
    descC5.getPath [.key "requiredComplexNestedArray", .idx 0, .key "requiredChild"] =
      .undefined ∧
    ancC5.desc.getPath [.key "requiredComplexNestedArray", .idx 0, .key "requiredChild"] =
      .str "foo" ∧
    matC5.getPath [.key "requiredString"] = .str "foo" ∧
    matC5.getPath [.key "string"] = .null ∧
    matC5.getPath [.key "stringArray"] = .arr [] ∧
    matC5.getPath [.key "complex"] = .obj [] := by
  refine ⟨fun t name opts h1 h2 h3 => ?_, fun plugin t fuel pt d path hd => ?_,
          rfl, rfl, rfl, rfl, rfl, rfl, rfl, rfl⟩
  · unfold getParameterValue getParameterValueCounted
    simp [h1, h2, h3, Param.getPath, Param.isUndefined]
  · simp only [Param.isUndefined] at hd
    cases fuel <;>
      simp [processResolvedFuel, processResolvedStep, hd, NestedInfos.isNil, Param.isUndefined]

/-- Witness for claim C5: the general fallback and default laws applied at
the concrete fallback-test trial. -/
theorem parameter_fallback_and_defaults_witness :
    getParameterValue tC5 [.key "requiredString"] {} =
      (ancestorLookup tC5.ancestors [.key "requiredString"] true).1 ∧
    processResolvedFuel "test" tC5 0 (.mk .string false (some .null) .nil)
      [.key "string"] .undefined = .ok .null :=
  ⟨parameter_fallback_and_defaults.1 tC5 "requiredString" {} rfl rfl rfl,
   parameter_fallback_and_defaults.2.1 "test" tC5 0 .string .null [.key "string"] rfl⟩

/-- The plugin of the non-array-value test (`Trial.spec.ts`,
lines 322–341): a required STRING array parameter. -/
def pluginC6 : PluginInfo :=
  ⟨"test", .cons "stringArray" (.mk .string true none .nil) .nil⟩

/-- The failing trial passing an object for the array parameter. -/
def cfgC6obj : RunConfig :=
  { cfgBase with plugin := pluginC6,
                 description := .obj [("type", .str "test"), ("stringArray", .obj [])] }

/-- The failing trial passing the number 1 for the array parameter. -/
def cfgC6num : RunConfig :=
  { cfgBase with plugin := pluginC6,
                 description := .obj [("type", .str "test"), ("stringArray", .num 1)] }

/-- The succeeding trial passing an empty array for the array parameter. -/
def cfgC6ok : RunConfig :=
  { cfgBase with plugin := pluginC6,
                 description := .obj [("type", .str "test"), ("stringArray", .arr [])] }

/-- Claim C6: a parameter declared `array: true` whose resolved value is not
an array fails with an `InvalidParameterType` error whose message names the
parameter, the plugin's declared name, and the string rendering of the
offending value — with the exact message of the test's inline snapshot for
an object (`[object Object]`) and for the number 1 — while an array value
produces no such error. -/
theorem array_parameter_type_validation :
    (∀ (plugin : String) (t : TrialNode)
        (fieldsFn : NestedInfos → List Seg → Param → Except TrialError Param)
        (pt : PType) (dflt : Option Param) (ns : NestedInfos) (path : List Seg) (v : Param),
      v.isUndefined = false → v.isArr = false →
      processResolvedStep plugin t fieldsFn (.mk pt true dflt ns) path v =
        .error (.invalidParameterType path plugin v)) ∧
    (∀ (path : List Seg) (plugin : String) (v : Param),
      errMsg (.invalidParameterType path plugin v) =
        "A non-array value (`" ++ v.jsToString ++
        "`) was provided for the array parameter \"" ++ parameterPathArrayToString path ++
        "\" in the \"" ++ plugin ++ "\" plugin. Please make sure that \"" ++
        parameterPathArrayToString path ++ "\" is an array.") ∧
    (∀ (plugin : String) (t : TrialNode)
        (fieldsFn : NestedInfos → List Seg → Param → Except TrialError Param)
        (pt : PType) (dflt : Option Param) (path : List Seg) (es : List Param),
      processResolvedStep plugin t fieldsFn (.mk pt true dflt .nil) path (.arr es) =
        .ok (.arr es)) ∧
    (runTrial cfgC6obj).error =
      some (.invalidParameterType [.key "stringArray"] "test" (.obj [])) ∧
    errMsg (.invalidParameterType [.key "stringArray"] "test" (.obj [])) =
      "A non-array value (`[object Object]`) was provided for the array parameter \"stringArray\" in the \"test\" plugin. Please make sure that \"stringArray\" is an array." ∧
    (runTrial cfgC6num).error =
      some (.invalidParameterType [.key "stringArray"] "test" (.num 1)) ∧
    errMsg (.invalidParameterType [.key "stringArray"] "test" (.num 1)) =
      "A non-array value (`1`) was provided for the array parameter \"stringArray\" in the \"test\" plugin. Please make sure that \"stringArray\" is an array." ∧
    (runTrial cfgC6ok).error = none := by
  refine ⟨fun plugin t fieldsFn pt dflt ns path v h1 h2 => ?_,
          fun path plugin v => rfl,
          fun plugin t fieldsFn pt dflt path es => rfl,
          rfl, rfl, rfl, rfl, rfl⟩
  simp [processResolvedStep, h1, h2]

/-- Witness for claim C6: the non-array law applied at the concrete failing
value of the test (an empty object). -/
theorem array_parameter_type_validation_witness :
    processResolvedStep "test" cfgC6obj.node (fun _ _ c => .ok c) (.mk .string true none .nil)
      [.key "stringArray"] (.obj []) =
      .error (.invalidParameterType [.key "stringArray"] "test" (.obj [])) :=
  array_parameter_type_validation.1 "test" cfgC6obj.node (fun _ _ c => .ok c)
    .string none .nil [.key "stringArray"] (.obj []) rfl rfl

theorem lookupOpt_setKey_self (l : List (String × Param)) (k : String) (v : Param) :
    lookupOpt (setKey l k v) k = some v := by
  induction l with
  | nil => simp [setKey, lookupOpt]
  | cons hd tl ih =>
    obtain ⟨k', v'⟩ := hd
    by_cases h : k' = k
    · simp [setKey, h, lookupOpt]
    · simp [setKey, h, lookupOpt, ih]

theorem lookupOpt_setKey_ne (l : List (String × Param)) (k k' : String) (v : Param)
    (h : k ≠ k') : lookupOpt (setKey l k v) k' = lookupOpt l k' := by
  induction l with
  | nil => simp [setKey, lookupOpt, h]
  | cons hd tl ih =>
    obtain ⟨k0, v0⟩ := hd
    by_cases h0 : k0 = k
    · subst h0
      simp [setKey, lookupOpt, h]
    · simp [setKey, h0, lookupOpt, ih]

theorem lookupOpt_removeKey_self (l : List (String × Param)) (k : String) :
    lookupOpt (removeKey l k) k = none := by
  induction l with
  | nil => simp [removeKey, lookupOpt]
  | cons hd tl ih =>
    obtain ⟨k0, v0⟩ := hd
    by_cases h0 : k0 = k
    · simp [removeKey, h0, ih]
    · simp [removeKey, h0, lookupOpt, ih]

theorem lookupOpt_removeKey_ne (l : List (String × Param)) (k k' : String)
    (h : k ≠ k') : lookupOpt (removeKey l k) k' = lookupOpt l k' := by
  induction l with
  | nil => simp [removeKey]
  | cons hd tl ih =>
    obtain ⟨k0, v0⟩ := hd
    by_cases h0 : k0 = k
    · subst h0
      simp [removeKey, lookupOpt, h, ih]
    · simp [removeKey, h0, lookupOpt, ih]

theorem applySaveParams_lookup_not_mem (stp : List (String × Bool))
    (res : List (String × Param)) (declared : List String) (m : Param) (k : String)
    (h : k ∉ stp.map Prod.fst) :
    lookupOpt (applySaveParams res stp declared m).1 k = lookupOpt res k := by
  induction stp generalizing res with
  | nil => rfl
  | cons hd tl ih =>
    obtain ⟨k0, b0⟩ := hd
    have hk0 : k0 ≠ k := by rintro rfl; exact h (by simp)
    have htl : k ∉ tl.map Prod.fst := fun hm => h (by simp [hm])
    by_cases hdecl : k0 ∈ declared
    · cases b0
      · simp [applySaveParams, hdecl, ih _ htl, lookupOpt_removeKey_ne _ _ _ hk0]
      · simp [applySaveParams, hdecl, ih _ htl, lookupOpt_setKey_ne _ _ _ _ hk0]
    · simp [applySaveParams, hdecl, ih _ htl]

theorem applySaveParams_warn_not_mem (stp : List (String × Bool))
    (res : List (String × Param)) (declared : List String) (m : Param) (k : String)
    (h : k ∉ stp.map Prod.fst) : k ∉ (applySaveParams res stp declared m).2 := by
  induction stp generalizing res with
  | nil => simp [applySaveParams]
  | cons hd tl ih =>
    obtain ⟨k0, b0⟩ := hd
    have hk0 : k0 ≠ k := by rintro rfl; exact h (by simp)
    have htl : k ∉ tl.map Prod.fst := fun hm => h (by simp [hm])
    by_cases hdecl : k0 ∈ declared
    · cases b0 <;> simp [applySaveParams, hdecl, ih _ htl]
    · simp [applySaveParams, hdecl, not_or]
      exact ⟨fun he => hk0 he.symm, ih _ htl⟩

theorem applySaveParams_removed (stp : List (String × Bool))
    (res : List (String × Param)) (declared : List String) (m : Param) (k : String)
    (hnd : (stp.map Prod.fst).Nodup) (hmem : (k, false) ∈ stp)
    (hdecl : declared.contains k = true) :
    lookupOpt (applySaveParams res stp declared m).1 k = none := by
  induction stp generalizing res with
  | nil => simp at hmem
  | cons hd tl ih =>
    obtain ⟨k0, b0⟩ := hd
    simp only [List.map_cons] at hnd
    obtain ⟨hnd1, hnd2⟩ := List.nodup_cons.mp hnd
    rcases List.mem_cons.mp hmem with h1 | h2
    · have hk : k = k0 := congrArg Prod.fst h1
      have hb : false = b0 := congrArg Prod.snd h1
      subst hk
      subst hb
      have htl : k ∉ tl.map Prod.fst := by simpa using hnd1
      have hdecl2 : k ∈ declared := by simpa using hdecl
      rw [show applySaveParams res ((k, false) :: tl) declared m =
            applySaveParams (removeKey res k) tl declared m by
          simp [applySaveParams, hdecl2]]
      rw [applySaveParams_lookup_not_mem _ _ _ _ _ htl]
      exact lookupOpt_removeKey_self res k
    · have hk0 : k0 ≠ k := by
        rintro rfl
        exact (by simpa using hnd1 : k0 ∉ tl.map Prod.fst)
          (List.mem_map.mpr ⟨(k0, false), h2, rfl⟩)
      by_cases hd0 : k0 ∈ declared
      · cases b0
        · simp [applySaveParams, hd0, ih (removeKey res k0) hnd2 h2]
        · simp [applySaveParams, hd0,
            ih (setKey res k0 (stringifyIfFunc (m.getSeg (.key k0)))) hnd2 h2]
      · simp [applySaveParams, hd0, ih res hnd2 h2]

theorem applySaveParams_added (stp : List (String × Bool))
    (res : List (String × Param)) (declared : List String) (m : Param) (k : String)
    (hnd : (stp.map Prod.fst).Nodup) (hmem : (k, true) ∈ stp)
    (hdecl : declared.contains k = true) :
    lookupOpt (applySaveParams res stp declared m).1 k =
      some (stringifyIfFunc (m.getSeg (.key k))) := by
  induction stp generalizing res with
  | nil => simp at hmem
  | cons hd tl ih =>
    obtain ⟨k0, b0⟩ := hd
    simp only [List.map_cons] at hnd
    obtain ⟨hnd1, hnd2⟩ := List.nodup_cons.mp hnd
    rcases List.mem_cons.mp hmem with h1 | h2
    · have hk : k = k0 := congrArg Prod.fst h1
      have hb : true = b0 := congrArg Prod.snd h1
      subst hk
      subst hb
      have htl : k ∉ tl.map Prod.fst := by simpa using hnd1
      have hdecl2 : k ∈ declared := by simpa using hdecl
      rw [show applySaveParams res ((k, true) :: tl) declared m =
            applySaveParams (setKey res k (stringifyIfFunc (m.getSeg (.key k)))) tl declared m by
          simp [applySaveParams, hdecl2]]
      rw [applySaveParams_lookup_not_mem _ _ _ _ _ htl]
      exact lookupOpt_setKey_self res k _
    · have hk0 : k0 ≠ k := by
        rintro rfl
        exact (by simpa using hnd1 : k0 ∉ tl.map Prod.fst)
          (List.mem_map.mpr ⟨(k0, true), h2, rfl⟩)
      by_cases hd0 : k0 ∈ declared
      · cases b0
        · simp [applySaveParams, hd0, ih (removeKey res k0) hnd2 h2]
        · simp [applySaveParams, hd0,
            ih (setKey res k0 (stringifyIfFunc (m.getSeg (.key k0)))) hnd2 h2]
      · simp [applySaveParams, hd0, ih res hnd2 h2]

theorem applySaveParams_unknown (stp : List (String × Bool))
    (res : List (String × Param)) (declared : List String) (m : Param) (k : String)
    (b : Bool) (hnd : (stp.map Prod.fst).Nodup) (hmem : (k, b) ∈ stp)
    (hdecl : declared.contains k = false) :
    lookupOpt (applySaveParams res stp declared m).1 k = lookupOpt res k ∧
      (applySaveParams res stp declared m).2.count k = 1 := by
  induction stp generalizing res with
  | nil => simp at hmem
  | cons hd tl ih =>
    obtain ⟨k0, b0⟩ := hd
    simp only [List.map_cons] at hnd
    obtain ⟨hnd1, hnd2⟩ := List.nodup_cons.mp hnd
    rcases List.mem_cons.mp hmem with h1 | h2
    · have hk : k = k0 := congrArg Prod.fst h1
      subst hk
      have htl : k ∉ tl.map Prod.fst := by simpa using hnd1
      have hdecl2 : k ∉ declared := by simpa using hdecl
      have hstep : applySaveParams res ((k, b0) :: tl) declared m =
          ((applySaveParams res tl declared m).1, k :: (applySaveParams res tl declared m).2) := by
        simp [applySaveParams, hdecl2]
      rw [hstep]
      refine ⟨applySaveParams_lookup_not_mem _ _ _ _ _ htl, ?_⟩
      have hz : (applySaveParams res tl declared m).2.count k = 0 :=
        List.count_eq_zero.mpr (applySaveParams_warn_not_mem _ _ _ _ _ htl)
      simp [List.count_cons_self, hz]
    · have hk0 : k0 ≠ k := by
        rintro rfl
        exact (by simpa using hnd1 : k0 ∉ tl.map Prod.fst)
          (List.mem_map.mpr ⟨(k0, b), h2, rfl⟩)
      by_cases hd0 : k0 ∈ declared
      · cases b0
        · obtain ⟨ih1, ih2⟩ := ih (removeKey res k0) hnd2 h2
          exact ⟨by simp [applySaveParams, hd0, ih1, lookupOpt_removeKey_ne _ _ _ hk0],
                 by simp [applySaveParams, hd0, ih2]⟩
        · obtain ⟨ih1, ih2⟩ := ih (setKey res k0 (stringifyIfFunc (m.getSeg (.key k0)))) hnd2 h2
          exact ⟨by simp [applySaveParams, hd0, ih1, lookupOpt_setKey_ne _ _ _ _ hk0],
                 by simp [applySaveParams, hd0, ih2]⟩
      · obtain ⟨ih1, ih2⟩ := ih res hnd2 h2
        exact ⟨by simp [applySaveParams, hd0, ih1],
               by simp [applySaveParams, hd0, List.count_cons, hk0, ih2]⟩

/-- The plugin of the `save_trial_parameters` test (`Trial.spec.ts`,
lines 191–198). -/
def pluginC7 : PluginInfo :=
  ⟨"test",
    .cons "stringParameter1" (.mk .string false none .nil)
      (.cons "stringParameter2" (.mk .string false none .nil)
        (.cons "stringParameter3" (.mk .string false none .nil)
          (.cons "stringParameter4" (.mk .string false none .nil)
            (.cons "complexArrayParameter" (.mk .complex true none .nil)
              (.cons "functionParameter" (.mk .function false none .nil) .nil)))))⟩

/-- The trial description of the `save_trial_parameters` test
(`Trial.spec.ts`, lines 204–220). -/
def descC7 : Param :=
  .obj [("type", .str "test"),
        ("stringParameter1", .str "string"), ("stringParameter2", .str "string"),
        ("stringParameter3", .str "string"), ("stringParameter4", .str "string"),
        ("functionParameter", .func .undefined "jest.fn()"),
        ("complexArrayParameter", .arr [.obj [("child", .str "foo")],
                                        .func (.obj [("child", .str "bar")]) "() => obj"]),
        ("save_trial_parameters", .obj
          [("stringParameter3", .bool false), ("stringParameter4", .bool true),
           ("functionParameter", .bool true), ("complexArrayParameter", .bool true),
           ("result", .bool false)])]

/-- The run of the `save_trial_parameters` test: the plugin produces
`result`, `stringParameter2` and `stringParameter3` via the completion
channel (`Trial.spec.ts`, lines 199–203). -/
def cfgC7 : RunConfig :=
  { cfgBase with
      plugin := pluginC7,
      description := descC7,
      returnsPromise := false,
      channelValue := .obj [("result", .str "foo"), ("stringParameter2", .str "string"),
                            ("stringParameter3", .str "string")] }

/-- Claim C7: during result assembly, a `save_trial_parameters` entry of
`false` for a declared parameter removes that key from the final result
even if the plugin included it; an entry of `true` for a declared parameter
the plugin omitted adds the resolved value (functions rendered as their
string form); an entry naming no declared parameter leaves the result's
existing key untouched and emits exactly one warning; and unmentioned keys
are left exactly as the plugin produced them — together with the concrete
scenario of the test suite. -/
theorem save_trial_parameters_policy :
    (∀ (stp : List (String × Bool)) (res : List (String × Param)) (declared : List String)
        (m : Param) (k : String),
      (stp.map Prod.fst).Nodup → (k, false) ∈ stp → declared.contains k = true →
      lookupOpt (applySaveParams res stp declared m).1 k = none) ∧
    (∀ (stp : List (String × Bool)) (res : List (String × Param)) (declared : List String)
        (m : Param) (k : String),
      (stp.map Prod.fst).Nodup → (k, true) ∈ stp → declared.contains k = true →
      lookupOpt (applySaveParams res stp declared m).1 k =
        some (stringifyIfFunc (m.getSeg (.key k)))) ∧
    (∀ (stp : List (String × Bool)) (res : List (String × Param)) (declared : List String)
        (m : Param) (k : String) (b : Bool),
      (stp.map Prod.fst).Nodup → (k, b) ∈ stp → declared.contains k = false →
      lookupOpt (applySaveParams res stp declared m).1 k = lookupOpt res k ∧
        (applySaveParams res stp declared m).2.count k = 1) ∧
    (∀ (stp : List (String × Bool)) (res : List (String × Param)) (declared : List String)
        (m : Param) (k : String),
      k ∉ stp.map Prod.fst →
      lookupOpt (applySaveParams res stp declared m).1 k = lookupOpt res k) ∧
    lookupOpt (resultFields (runTrial cfgC7)) "stringParameter1" = none ∧
    lookupOpt (resultFields (runTrial cfgC7)) "stringParameter2" = some (.str "string") ∧
    lookupOpt (resultFields (runTrial cfgC7)) "stringParameter3" = none ∧
    lookupOpt (resultFields (runTrial cfgC7)) "stringParameter4" = some (.str "string") ∧
    lookupOpt (resultFields (runTrial cfgC7)) "functionParameter" = some (.str "jest.fn()") ∧
    lookupOpt (resultFields (runTrial cfgC7)) "result" = some (.str "foo") ∧
    (runTrial cfgC7).warnings = [saveParamWarning "result"] ∧
    saveParamWarning "result" =
      "Non-existent parameter \"result\" specified in save_trial_parameters." :=
  ⟨applySaveParams_removed, applySaveParams_added,
   fun stp res declared m k b => applySaveParams_unknown stp res declared m k b,
   applySaveParams_lookup_not_mem,
   rfl, rfl, rfl, rfl, rfl, rfl, rfl, rfl⟩

/-- Witness for claim C7: the four policy laws applied to concrete
`save_trial_parameters` mappings. -/
theorem save_trial_parameters_policy_witness :
    lookupOpt (applySaveParams [("a", .str "x")] [("a", false)] ["a"] (.obj [])).1 "a" =
      none ∧
    lookupOpt (applySaveParams [] [("b", true)] ["b"]
        (.obj [("b", .func .undefined "fn")])).1 "b" = some (.str "fn") ∧
    (lookupOpt (applySaveParams [("c", .str "x")] [("c", false)] ["other"] (.obj [])).1 "c" =
        some (.str "x") ∧
      (applySaveParams [("c", .str "x")] [("c", false)] ["other"] (.obj [])).2.count "c" = 1) ∧
    lookupOpt (applySaveParams [("d", .str "x")] [("a", false)] ["a"] (.obj [])).1 "d" =
      some (.str "x") :=
  ⟨save_trial_parameters_policy.1 [("a", false)] [("a", .str "x")] ["a"] (.obj []) "a"
      (by simp) (by simp) (by simp),
   save_trial_parameters_policy.2.1 [("b", true)] [] ["b"] (.obj [("b", .func .undefined "fn")]) "b"
      (by simp) (by simp) (by simp),
   save_trial_parameters_policy.2.2.1 [("c", false)] [("c", .str "x")] ["other"] (.obj []) "c"
      false (by simp) (by simp) (by simp),
   save_trial_parameters_policy.2.2.2.1 [("a", false)] [("d", .str "x")] ["a"] (.obj []) "d"
      (by simp)⟩

theorem readAt_append_lt (h : List Param) (v : Param) (a : Nat) (ha : a < h.length) :
    readAt (h ++ [v]) a = readAt h a := by
  induction h generalizing a with
  | nil => exact absurd ha (Nat.not_lt_zero a)
  | cons x xs ih =>
    cases a with
    | zero => rfl
    | succ n => exact ih n (by simpa using ha)

theorem readAt_append_len (h : List Param) (v : Param) :
    readAt (h ++ [v]) h.length = v := by
  induction h with
  | nil => rfl
  | cons x xs ih => simpa [readAt] using ih

theorem readAt_writeAt_self (l : List Param) (n : Nat) (v : Param) (hn : n < l.length) :
    readAt (writeAt l n v) n = v := by
  induction l generalizing n with
  | nil => exact absurd hn (Nat.not_lt_zero n)
  | cons x xs ih =>
    cases n with
    | zero => rfl
    | succ m => exact ih m (by simpa using hn)

theorem readAt_writeAt_ne (l : List Param) (n m : Nat) (v : Param) (h : m ≠ n) :
    readAt (writeAt l n v) m = readAt l m := by
  induction l generalizing n m with
  | nil => rfl
  | cons x xs ih =>
    cases n with
    | zero =>
      cases m with
      | zero => exact absurd rfl h
      | succ m2 => rfl
    | succ n2 =>
      cases m with
      | zero => rfl
      | succ m2 => exact ih n2 m2 (fun he => h (by simp [he]))

/-- The `on_start` mutation of the working-copy test (`Trial.spec.ts`,
lines 70–88): it sets `stimulus` to `"changed"` on the object it is
handed. -/
def hookC8 : Param → Param := fun p => p.setField "stimulus" (.str "changed")

/-- The run configuration whose local `on_start` hook performs the working
copy mutation of the test. -/
def cfgC8 : RunConfig := { cfgBase with onStartMutation := hookC8 }

/-- Claim C8: the object handed to the local `on_start` hook is a deep,
independent working copy allocated at a fresh address — not the authored
description object; the hook's mutation lands on the working copy while
every field of the original description is left unchanged; and the object
the plugin receives is the materialized working object with the `on_start`
mutation applied. -/
theorem working_copy_isolation (h : List Param) (a0 : Nat) (hook : Param → Param)
    (ha : a0 < h.length) :
    (runWorkingCopyPhase h a0 hook).workingAddr ≠ (runWorkingCopyPhase h a0 hook).originalAddr ∧
    readAt (runWorkingCopyPhase h a0 hook).heap (runWorkingCopyPhase h a0 hook).originalAddr =
      readAt h a0 ∧
    readAt (runWorkingCopyPhase h a0 hook).heap (runWorkingCopyPhase h a0 hook).workingAddr =
      hook (readAt h a0) ∧
    (∀ (cfg : RunConfig) (m : Param),
      materializeParams cfg.node cfg.plugin = .ok m →
      (runTrial cfg).pluginArgs = some (cfg.onStartMutation m)) := by
  refine ⟨?_, ?_, ?_, fun cfg m hm => ?_⟩
  · show h.length ≠ a0
    exact Nat.ne_of_gt ha
  · show readAt (writeAt (h ++ [readAt h a0]) h.length
        (hook (readAt (h ++ [readAt h a0]) h.length))) a0 = readAt h a0
    rw [readAt_writeAt_ne _ _ _ _ (Nat.ne_of_lt ha)]
    exact readAt_append_lt h _ a0 ha
  · show readAt (writeAt (h ++ [readAt h a0]) h.length
        (hook (readAt (h ++ [readAt h a0]) h.length))) h.length = hook (readAt h a0)
    rw [readAt_writeAt_self _ _ _ (by simp), readAt_append_len]
  · unfold runTrial
    rw [hm]

/-- Witness for claim C8: the concrete mutation of the test — the working
copy receives `stimulus: "changed"`, the original description is unchanged,
and the plugin receives the mutated object. -/
theorem working_copy_isolation_witness :
    (0 : Nat) < [descBare].length ∧
    (runWorkingCopyPhase [descBare] 0 hookC8).workingAddr ≠
      (runWorkingCopyPhase [descBare] 0 hookC8).originalAddr ∧
    readAt (runWorkingCopyPhase [descBare] 0 hookC8).heap
      (runWorkingCopyPhase [descBare] 0 hookC8).originalAddr = descBare ∧
    readAt (runWorkingCopyPhase [descBare] 0 hookC8).heap
      (runWorkingCopyPhase [descBare] 0 hookC8).workingAddr =
      .obj [("type", .str "test"), ("stimulus", .str "changed")] ∧
    (runTrial cfgC8).pluginArgs =
      some (.obj [("type", .str "test"), ("stimulus", .str "changed")]) :=
  ⟨Nat.zero_lt_one,
   (working_copy_isolation [descBare] 0 hookC8 Nat.zero_lt_one).1,
   ((working_copy_isolation [descBare] 0 hookC8 Nat.zero_lt_one).2.1).trans rfl,
   ((working_copy_isolation [descBare] 0 hookC8 Nat.zero_lt_one).2.2.1).trans rfl,
   ((working_copy_isolation [descBare] 0 hookC8 Nat.zero_lt_one).2.2.2 cfgC8 descBare rfl).trans
     rfl⟩

end JsPsychTimeline
